import Mathlib

/-!
# Verification of the MP5922 PMBus eFuse monitor

Shallow embedding of `src/efuse_code.py`: the transport is modelled as a
call log plus a response oracle (one byte-list per read call, in call
order); register values are natural numbers; converted physical values are
exact rationals (the scale factors 0.015625 and 0.125 are dyadic, and the
claims under study concern branch structure and exact linear arithmetic).
Python list indexing errors (short transport responses) are modelled as
`Option` failure.
-/

/-- One transport-level call: a read request (address, register, byte
count) or a write (address, register, data bytes). -/
inductive Event where
  | read  (addr reg count : Nat) : Event
  | write (addr reg : Nat) (data : List Nat) : Event
deriving DecidableEq, Repr

/-- Response oracle: the byte list returned by the n-th read call. -/
abbrev Resp := Nat → List Nat

/-- Transport state: the log of calls issued so far and the number of
read calls already made (indexing into the oracle). -/
structure I2CState where
  log : List Event
  reads : Nat
deriving DecidableEq, Repr

/-- Fixed device address of the MP5922 (`MP5922_ADDR = 0x70`). -/
def MP5922_ADDR : Nat := 0x70

/-- The configured rails (`PAGES` dict, in insertion order). -/
def PAGES : List (Nat × String) :=
  [(0, "Main Rail (Loop 1)"), (1, "Aux Rail  (Loop 2)"), (2, "Rail 3    (Loop 3)")]

/-- `i2c.read(addr, reg, n)`: logs the read and consumes the next oracle
response. -/
def i2c_read (resp : Resp) (s : I2CState) (addr reg n : Nat) :
    List Nat × I2CState :=
  (resp s.reads, ⟨s.log ++ [Event.read addr reg n], s.reads + 1⟩)

/-- `i2c.write(addr, reg, data)`: logs the write. -/
def i2c_write (s : I2CState) (addr reg : Nat) (data : List Nat) : I2CState :=
  ⟨s.log ++ [Event.write addr reg data], s.reads⟩

/-- `read_word`: reads 2 bytes, composes little-endian `d[0] | d[1] << 8`.
A response with fewer than two bytes raises `IndexError` in Python,
modelled as `none`. A longer response uses only its first two bytes. -/
def read_word (resp : Resp) (s : I2CState) (addr reg : Nat) :
    Option Nat × I2CState :=
  let r := i2c_read resp s addr reg 2
  match r.1 with
  | b0 :: b1 :: _ => (some (b0 ||| (b1 <<< 8)), r.2)
  | _ => (none, r.2)

/-- `write_word`: little-endian split `[value & 0xFF, (value >> 8) & 0xFF]`. -/
def write_word (s : I2CState) (addr reg value : Nat) : I2CState :=
  i2c_write s addr reg [value &&& 0xFF, (value >>> 8) &&& 0xFF]

/-- `write_byte`: single byte `[value & 0xFF]`. -/
def write_byte (s : I2CState) (addr reg value : Nat) : I2CState :=
  i2c_write s addr reg [value &&& 0xFF]

/-- `select_page`: writes `page & 0xFF` to register 0x00 (the settle sleep
has no observable effect in this model). -/
def select_page (s : I2CState) (page : Nat) : I2CState :=
  i2c_write s MP5922_ADDR 0x00 [page &&& 0xFF]

/-- `rail_enable`: page select, then 0x80 to the operation register 0x01. -/
def rail_enable (s : I2CState) (page : Nat) : I2CState :=
  write_byte (select_page s page) MP5922_ADDR 0x01 0x80

/-- `rail_disable`: page select, then 0x00 to the operation register 0x01. -/
def rail_disable (s : I2CState) (page : Nat) : I2CState :=
  write_byte (select_page s page) MP5922_ADDR 0x01 0x00

/-- `unlock_mp5922`: writes the PMBus password 0x82C2 to register 0xE1. -/
def unlock_mp5922 (s : I2CState) : I2CState :=
  write_word s MP5922_ADDR 0xE1 0x82C2

/-- `clear_faults`: command-only write to register 0x03. -/
def clear_faults (s : I2CState) : I2CState :=
  i2c_write s MP5922_ADDR 0x03 []

/-- `raw_to_voltage`: 15.625 mV per LSB. -/
def raw_to_voltage (raw : Nat) : ℚ := raw * 0.015625

/-- `raw_to_power`: 0.125 W per LSB. -/
def raw_to_power (raw : Nat) : ℚ := raw * 0.125

/-- The derived rail current of `show_status` line 135:
`iout = pout / vout if vout > 0 else 0.0` (the spec's §4.4 `current`). -/
def current (power voltage : ℚ) : ℚ :=
  if voltage > 0 then power / voltage else 0

/-- `decode_faults`: appends one name per set bit, in source order;
returns `["NO_FAULTS"]` when the list would be empty. -/
def decode_faults (sw si sin st : Nat) : List String :=
  let faults : List String :=
    (if sw &&& (1 <<< 15) ≠ 0 then ["VOUT_OV"] else []) ++
    (if sw &&& (1 <<< 14) ≠ 0 then ["IOUT_OC"] else []) ++
    (if sw &&& (1 <<< 13) ≠ 0 then ["VIN_UV"] else []) ++
    (if sw &&& (1 <<< 12) ≠ 0 then ["TEMP_FAULT"] else []) ++
    (if sw &&& (1 <<< 7) ≠ 0 then ["DEVICE_FAULT"] else []) ++
    (if sw &&& (1 <<< 6) ≠ 0 then ["POWER_GOOD=NO"] else []) ++
    (if si &&& 0x01 ≠ 0 then ["IOUT_OC_WARNING"] else []) ++
    (if si &&& 0x02 ≠ 0 then ["IOUT_OC_FAULT"] else []) ++
    (if sin &&& 0x01 ≠ 0 then ["VIN_UV_FAULT"] else []) ++
    (if sin &&& 0x02 ≠ 0 then ["VIN_OV_FAULT"] else []) ++
    (if st &&& 0x01 ≠ 0 then ["TEMP_WARNING"] else []) ++
    (if st &&& 0x02 ≠ 0 then ["TEMP_FAULT"] else [])
  if faults = [] then ["NO_FAULTS"] else faults

/-- Per-rail snapshot assembled by the body of `show_status`'s loop. -/
structure RailReport where
  page : Nat
  name : String
  vin_raw : Nat
  vout_raw : Nat
  iout_raw : Nat
  pout_raw : Nat
  vin : ℚ
  vout : ℚ
  iout : ℚ
  pout : ℚ
  faults : List String
deriving DecidableEq, Repr

/-- Aggregate report of `show_status`: global input power, per-rail
reports, and the summary values. -/
structure SystemReport where
  pin_raw : Nat
  pin_w : ℚ
  rails : List RailReport
  total_pout : ℚ
  loss : ℚ
  eff : ℚ
deriving DecidableEq, Repr

/-- One iteration of `show_status`'s per-rail loop: page select, the eight
word reads in source order, conversions, derived current, fault decode. -/
def read_rail (resp : Resp) (s : I2CState) (page : Nat) (name : String) :
    Option RailReport × I2CState :=
  let s0 := select_page s page
  match read_word resp s0 MP5922_ADDR 0x88 with
  | (none, s1) => (none, s1)
  | (some vin_raw, s1) =>
    match read_word resp s1 MP5922_ADDR 0x8B with
    | (none, s2) => (none, s2)
    | (some vout_raw, s2) =>
      match read_word resp s2 MP5922_ADDR 0x8C with
      | (none, s3) => (none, s3)
      | (some iout_raw, s3) =>
        match read_word resp s3 MP5922_ADDR 0x96 with
        | (none, s4) => (none, s4)
        | (some pout_raw, s4) =>
          match read_word resp s4 MP5922_ADDR 0x79 with
          | (none, s5) => (none, s5)
          | (some sw, s5) =>
            match read_word resp s5 MP5922_ADDR 0x7B with
            | (none, s6) => (none, s6)
            | (some si, s6) =>
              match read_word resp s6 MP5922_ADDR 0x7C with
              | (none, s7) => (none, s7)
              | (some sin, s7) =>
                match read_word resp s7 MP5922_ADDR 0x7D with
                | (none, s8) => (none, s8)
                | (some st, s8) =>
                  let vin := raw_to_voltage vin_raw
                  let vout := raw_to_voltage vout_raw
                  let pout := raw_to_power pout_raw
                  let iout := current pout vout
                  let faults := decode_faults sw si sin st
                  (some ⟨page, name, vin_raw, vout_raw, iout_raw, pout_raw,
                         vin, vout, iout, pout, faults⟩, s8)

/-- The `for page, name in PAGES.items()` loop of `show_status`,
accumulating `total_pout`; aborts on the first failed read. -/
def status_loop (resp : Resp) (s : I2CState) (pages : List (Nat × String))
    (total : ℚ) : Option (List RailReport × ℚ) × I2CState :=
  match pages with
  | [] => (some ([], total), s)
  | (page, name) :: rest =>
    match read_rail resp s page name with
    | (none, s1) => (none, s1)
    | (some r, s1) =>
      match status_loop resp s1 rest (total + r.pout) with
      | (none, s2) => (none, s2)
      | (some (rs, t), s2) => (some (r :: rs, t), s2)

/-- `show_status`: global input-power read (0x97), the per-rail loop over
`PAGES`, then the summary (`loss = pin_w - total_pout`,
`eff = total_pout / pin_w * 100 if pin_w > 0 else 0`). -/
def show_status (resp : Resp) (s : I2CState) :
    Option SystemReport × I2CState :=
  match read_word resp s MP5922_ADDR 0x97 with
  | (none, s1) => (none, s1)
  | (some pin_raw, s1) =>
    let pin_w := raw_to_power pin_raw
    match status_loop resp s1 PAGES 0 with
    | (none, s2) => (none, s2)
    | (some (rails, total_pout), s2) =>
      let loss := pin_w - total_pout
      let eff := if pin_w > 0 then total_pout / pin_w * 100 else 0
      (some ⟨pin_raw, pin_w, rails, total_pout, loss, eff⟩, s2)

/-! ## Fault decoder lemmas -/

/-- Boolean abstraction of `decode_faults`: same name list, driven by the
twelve bit tests. -/
def decodeB (c15 c14 c13 c12 c7 c6 i0 i1 p0 p1 t0 t1 : Bool) : List String :=
  let faults : List String :=
    (if c15 then ["VOUT_OV"] else []) ++
    (if c14 then ["IOUT_OC"] else []) ++
    (if c13 then ["VIN_UV"] else []) ++
    (if c12 then ["TEMP_FAULT"] else []) ++
    (if c7 then ["DEVICE_FAULT"] else []) ++
    (if c6 then ["POWER_GOOD=NO"] else []) ++
    (if i0 then ["IOUT_OC_WARNING"] else []) ++
    (if i1 then ["IOUT_OC_FAULT"] else []) ++
    (if p0 then ["VIN_UV_FAULT"] else []) ++
    (if p1 then ["VIN_OV_FAULT"] else []) ++
    (if t0 then ["TEMP_WARNING"] else []) ++
    (if t1 then ["TEMP_FAULT"] else [])
  if faults = [] then ["NO_FAULTS"] else faults

theorem and_shift_ne_iff (n i : Nat) : (n &&& 1 <<< i ≠ 0) ↔ n.testBit i = true := by
  rw [Nat.one_shiftLeft, Nat.and_two_pow]
  rcases h : n.testBit i <;> simp [h]

theorem and_one_ne_iff (n : Nat) : (n &&& 0x01 ≠ 0) ↔ n.testBit 0 = true := by
  simp

theorem and_two_ne_iff (n : Nat) : (n &&& 0x02 ≠ 0) ↔ n.testBit 1 = true := by
  simpa using and_shift_ne_iff n 1

theorem decode_faults_eq_decodeB (sw si sin st : Nat) :
    decode_faults sw si sin st =
      decodeB (sw.testBit 15) (sw.testBit 14) (sw.testBit 13) (sw.testBit 12)
        (sw.testBit 7) (sw.testBit 6) (si.testBit 0) (si.testBit 1)
        (sin.testBit 0) (sin.testBit 1) (st.testBit 0) (st.testBit 1) := by
  unfold decode_faults decodeB
  simp only [and_shift_ne_iff, and_one_ne_iff, and_two_ne_iff]

theorem decodeB_nodup_iff :
    ∀ c15 c14 c13 c12 c7 c6 i0 i1 p0 p1 t0 t1 : Bool,
      (decodeB c15 c14 c13 c12 c7 c6 i0 i1 p0 p1 t0 t1).Nodup ↔
        ¬(c12 = true ∧ t1 = true) := by
  decide

theorem decodeB_ne_nil :
    ∀ c15 c14 c13 c12 c7 c6 i0 i1 p0 p1 t0 t1 : Bool,
      decodeB c15 c14 c13 c12 c7 c6 i0 i1 p0 p1 t0 t1 ≠ [] := by
  decide

/-! ## Claim C1 -/

/-- C1 counterexample: with statusWord bit 12 and statusTemp bit 1 both
set, `decode_faults` returns the same name `TEMP_FAULT` twice — not two
distinct temperature-fault names, and the result has a duplicate. -/
theorem decode_faults_C1_counterexample :
    decode_faults 0x1000 0 0 0x02 = ["TEMP_FAULT", "TEMP_FAULT"] ∧
      ¬(decode_faults 0x1000 0 0 0x02).Nodup := by
  decide

/-- C1 amended: the decoded list is duplicate-free exactly when statusWord
bit 12 and statusTemp bit 1 are not both set; those two bits map to the
same name `TEMP_FAULT`, all other listed bits carry pairwise distinct
names. -/
theorem decode_faults_nodup_iff (sw si sin st : Nat) :
    (decode_faults sw si sin st).Nodup ↔
      ¬(sw.testBit 12 = true ∧ st.testBit 1 = true) := by
  rw [decode_faults_eq_decodeB]
  exact decodeB_nodup_iff _ _ _ _ _ _ _ _ _ _ _ _

/-! ## Claim C2 -/

/-- C2 counterexample: `decode(0xC0C0, 0x03, 0x03, 0x03)` returns ten
fault names, not twelve — bits 13 (`VIN_UV`) and 12 of statusWord are
clear in 0xC0C0. -/
theorem decode_faults_C2_counterexample :
    (decode_faults 0xC0C0 0x03 0x03 0x03).length = 10 ∧
      "VIN_UV" ∉ decode_faults 0xC0C0 0x03 0x03 0x03 := by
  decide

/-- C2 amended: `decode(0xC0C0, 0x03, 0x03, 0x03)` returns exactly the ten
named faults of the bits actually set (statusWord bits 15, 14, 7, 6 and
bits 0 and 1 of the other three words), in the table order. -/
theorem decode_faults_c0c0 :
    decode_faults 0xC0C0 0x03 0x03 0x03 =
      ["VOUT_OV", "IOUT_OC", "DEVICE_FAULT", "POWER_GOOD=NO",
       "IOUT_OC_WARNING", "IOUT_OC_FAULT", "VIN_UV_FAULT", "VIN_OV_FAULT",
       "TEMP_WARNING", "TEMP_FAULT"] := by
  decide

/-! ## Claim C6 -/

/-- C6: `decode_faults` never returns an empty list; when none of the
twelve listed bits is set it returns exactly `["NO_FAULTS"]`; and the two
concrete cases `decode(0,0,0,0) = ["NO_FAULTS"]`,
`decode(0x8000,0,0,0) = ["VOUT_OV"]` hold. -/
theorem decode_faults_sentinel (sw si sin st : Nat) :
    decode_faults sw si sin st ≠ [] ∧
      (sw.testBit 15 = false → sw.testBit 14 = false →
       sw.testBit 13 = false → sw.testBit 12 = false →
       sw.testBit 7 = false → sw.testBit 6 = false →
       si.testBit 0 = false → si.testBit 1 = false →
       sin.testBit 0 = false → sin.testBit 1 = false →
       st.testBit 0 = false → st.testBit 1 = false →
       decode_faults sw si sin st = ["NO_FAULTS"]) ∧
      decode_faults 0 0 0 0 = ["NO_FAULTS"] ∧
      decode_faults 0x8000 0 0 0 = ["VOUT_OV"] := by
  refine ⟨?_, ?_, by decide, by decide⟩
  · rw [decode_faults_eq_decodeB]
    exact decodeB_ne_nil _ _ _ _ _ _ _ _ _ _ _ _
  · intro h1 h2 h3 h4 h5 h6 h7 h8 h9 h10 h11 h12
    rw [decode_faults_eq_decodeB, h1, h2, h3, h4, h5, h6, h7, h8, h9, h10, h11, h12]
    decide

/-- C6 witness: the sentinel theorem applied at the all-zero status words. -/
theorem decode_faults_sentinel_witness :
    decode_faults 0 0 0 0 ≠ [] ∧ decode_faults 0 0 0 0 = ["NO_FAULTS"] := by
  obtain ⟨h1, h2, _, _⟩ := decode_faults_sentinel 0 0 0 0
  exact ⟨h1, h2 (by decide) (by decide) (by decide) (by decide) (by decide)
    (by decide) (by decide) (by decide) (by decide) (by decide) (by decide)
    (by decide)⟩

/-! ## Claim C5 -/

/-- C5: the derived current is exactly 0 for any power whenever voltage is
non-positive, and equals power divided by voltage whenever voltage is
positive, so the division branch is only taken with a nonzero divisor. -/
theorem current_guard (power voltage : ℚ) :
    (voltage ≤ 0 → current power voltage = 0) ∧
      (0 < voltage → current power voltage = power / voltage) := by
  constructor
  · intro h
    unfold current
    rw [if_neg (not_lt.mpr h)]
  · intro h
    unfold current
    rw [if_pos h]

/-- C5 witness: the guard theorem applied at power 5 with voltage -3 and
voltage 2. -/
theorem current_guard_witness :
    current 5 (-3) = 0 ∧ current 5 2 = 5 / 2 :=
  ⟨(current_guard 5 (-3)).1 (by norm_num), (current_guard 5 2).2 (by norm_num)⟩

/-! ## Claim C7 -/

/-- C7: the raw conversions are the stated linear maps, are additive and
monotonically non-decreasing in the raw value, and hit the anchor points
`voltage 0 = 0`, `voltage 64 = 1`, `power 0 = 0`, `power 8 = 1` exactly. -/
theorem conversions_linear_monotone (a b : Nat) :
    raw_to_voltage a = a * 0.015625 ∧
      raw_to_power a = a * 0.125 ∧
      raw_to_voltage (a + b) = raw_to_voltage a + raw_to_voltage b ∧
      raw_to_power (a + b) = raw_to_power a + raw_to_power b ∧
      (a ≤ b → raw_to_voltage a ≤ raw_to_voltage b) ∧
      (a ≤ b → raw_to_power a ≤ raw_to_power b) ∧
      raw_to_voltage 0 = 0 ∧ raw_to_voltage 64 = 1 ∧
      raw_to_power 0 = 0 ∧ raw_to_power 8 = 1 := by
  unfold raw_to_voltage raw_to_power
  refine ⟨rfl, rfl, ?_, ?_, ?_, ?_, by norm_num, by norm_num, by norm_num,
    by norm_num⟩
  · push_cast
    ring
  · push_cast
    ring
  · intro h
    have hc : (a : ℚ) ≤ (b : ℚ) := by exact_mod_cast h
    have : (0 : ℚ) ≤ 0.015625 := by norm_num
    exact mul_le_mul_of_nonneg_right hc this
  · intro h
    have hc : (a : ℚ) ≤ (b : ℚ) := by exact_mod_cast h
    have : (0 : ℚ) ≤ 0.125 := by norm_num
    exact mul_le_mul_of_nonneg_right hc this

/-- C7 witness: monotonicity of both conversions applied at 1 ≤ 2. -/
theorem conversions_linear_monotone_witness :
    raw_to_voltage 1 ≤ raw_to_voltage 2 ∧ raw_to_power 1 ≤ raw_to_power 2 :=
  ⟨(conversions_linear_monotone 1 2).2.2.2.2.1 (by norm_num),
   (conversions_linear_monotone 1 2).2.2.2.2.2.1 (by norm_num)⟩

/-! ## Byte-truncation lemmas -/

theorem and_ff_eq_mod (n : Nat) : n &&& 0xFF = n % 2 ^ 8 := by
  have h := Nat.and_pow_two_sub_one_eq_mod n 8
  norm_num at h
  simpa using h

theorem shift_and_ff_eq_mod_div (n : Nat) :
    (n >>> 8) &&& 0xFF = n % 2 ^ 16 / 2 ^ 8 := by
  have h := Nat.and_pow_two_sub_one_eq_mod (n >>> 8) 8
  rw [Nat.shiftRight_eq_div_pow] at h ⊢
  norm_num at h ⊢
  rw [h]
  omega

theorem mod_pow_eq_mod_mod (n : Nat) : n &&& 0xFF = n % 2 ^ 16 % 2 ^ 8 := by
  rw [and_ff_eq_mod]
  omega

/-! ## Claim C10 -/

/-- C10: every register write wraps its value to the field width —
`write_word` transmits exactly `value % 2^16` split little-endian into a
low and a high byte, `write_byte` and `select_page` transmit exactly
`value % 2^8`, and every transmitted byte is below 256. -/
theorem write_truncates (s : I2CState) (addr reg value : Nat) :
    (write_word s addr reg value).log =
      s.log ++ [Event.write addr reg
        [value % 2 ^ 16 % 2 ^ 8, value % 2 ^ 16 / 2 ^ 8]] ∧
      value % 2 ^ 16 % 2 ^ 8 < 2 ^ 8 ∧ value % 2 ^ 16 / 2 ^ 8 < 2 ^ 8 ∧
      (write_byte s addr reg value).log =
        s.log ++ [Event.write addr reg [value % 2 ^ 8]] ∧
      (select_page s value).log =
        s.log ++ [Event.write MP5922_ADDR 0x00 [value % 2 ^ 8]] ∧
      value % 2 ^ 8 < 2 ^ 8 := by
  refine ⟨?_, by omega, by omega, ?_, ?_, by omega⟩
  · unfold write_word i2c_write
    rw [mod_pow_eq_mod_mod, shift_and_ff_eq_mod_div]
  · unfold write_byte i2c_write
    rw [and_ff_eq_mod]
  · unfold select_page i2c_write
    rw [and_ff_eq_mod]

/-! ## Claim C3 -/

/-- C3 counterexample: index 5 is outside the configured rail set, yet
`rail_enable` still issues the page-select write and the operation write —
it does not fail fast and no validation exists. -/
theorem rail_enable_C3_counterexample :
    5 ∉ PAGES.map Prod.fst ∧
      (rail_enable ⟨[], 0⟩ 5).log =
        [Event.write MP5922_ADDR 0x00 [5], Event.write MP5922_ADDR 0x01 [0x80]] := by
  decide

/-- C3 amended: `rail_enable` and `rail_disable` perform no index
validation at all — for every index, inside or outside the configured
set, they issue the page-select write of `index % 2^8` followed by the
operation-register write (0x80 to enable, 0x00 to disable), and no read. -/
theorem rail_ops_no_validation (s : I2CState) (page : Nat) :
    (rail_enable s page).log =
      s.log ++ [Event.write MP5922_ADDR 0x00 [page % 2 ^ 8],
                Event.write MP5922_ADDR 0x01 [0x80]] ∧
      (rail_disable s page).log =
        s.log ++ [Event.write MP5922_ADDR 0x00 [page % 2 ^ 8],
                  Event.write MP5922_ADDR 0x01 [0x00]] ∧
      (rail_enable s page).reads = s.reads ∧
      (rail_disable s page).reads = s.reads := by
  have h80 : (0x80 : Nat) &&& 0xFF = 0x80 := by decide
  have h00 : (0x00 : Nat) &&& 0xFF = 0x00 := by decide
  unfold rail_enable rail_disable write_byte select_page i2c_write
  rw [and_ff_eq_mod page, h80, h00]
  refine ⟨by simp, by simp, rfl, rfl⟩

/-! ## Claim C9 -/

/-- C9: `read_word` issues exactly one read request for 2 bytes; when the
transport returns at least two bytes it composes the first two
little-endian as `byte0 | byte1 << 8`; when it returns fewer than two
bytes the word read fails (`none`), never zero-filling. -/
theorem read_word_contract (resp : Resp) (s : I2CState) (addr reg : Nat) :
    (read_word resp s addr reg).2 =
      ⟨s.log ++ [Event.read addr reg 2], s.reads + 1⟩ ∧
      (∀ b0 b1 rest, resp s.reads = b0 :: b1 :: rest →
        (read_word resp s addr reg).1 = some (b0 ||| (b1 <<< 8))) ∧
      ((resp s.reads).length < 2 → (read_word resp s addr reg).1 = none) := by
  refine ⟨?_, ?_, ?_⟩
  · unfold read_word i2c_read
    rcases resp s.reads with _ | ⟨b0, _ | ⟨b1, rest⟩⟩ <;> rfl
  · intro b0 b1 rest h
    unfold read_word i2c_read
    simp only [h]
  · intro h
    unfold read_word i2c_read
    rcases hr : resp s.reads with _ | ⟨b0, _ | ⟨b1, rest⟩⟩
    · rfl
    · rfl
    · rw [hr] at h
      simp at h
      omega

/-- C9 witness: the contract applied to a two-byte response `[3, 1]`
(word 259) and to a one-byte response `[7]` (failure). -/
theorem read_word_contract_witness :
    (read_word (fun _ => [3, 1]) ⟨[], 0⟩ 0x70 0x97).1 = some (3 ||| (1 <<< 8)) ∧
      (read_word (fun _ => [7]) ⟨[], 0⟩ 0x70 0x97).1 = none :=
  ⟨(read_word_contract (fun _ => [3, 1]) ⟨[], 0⟩ 0x70 0x97).2.1 3 1 [] rfl,
   (read_word_contract (fun _ => [7]) ⟨[], 0⟩ 0x70 0x97).2.2 (by decide)⟩

/-! ## Claim C8 -/

/-- Expected transport call log of one `show_status` run: one global
input-power read (0x97), then per configured rail, in `PAGES` order, one
page-select write followed by the eight per-rail register reads. -/
def show_status_expected_log : List Event :=
  [Event.read MP5922_ADDR 0x97 2,
   Event.write MP5922_ADDR 0x00 [0],
   Event.read MP5922_ADDR 0x88 2, Event.read MP5922_ADDR 0x8B 2,
   Event.read MP5922_ADDR 0x8C 2, Event.read MP5922_ADDR 0x96 2,
   Event.read MP5922_ADDR 0x79 2, Event.read MP5922_ADDR 0x7B 2,
   Event.read MP5922_ADDR 0x7C 2, Event.read MP5922_ADDR 0x7D 2,
   Event.write MP5922_ADDR 0x00 [1],
   Event.read MP5922_ADDR 0x88 2, Event.read MP5922_ADDR 0x8B 2,
   Event.read MP5922_ADDR 0x8C 2, Event.read MP5922_ADDR 0x96 2,
   Event.read MP5922_ADDR 0x79 2, Event.read MP5922_ADDR 0x7B 2,
   Event.read MP5922_ADDR 0x7C 2, Event.read MP5922_ADDR 0x7D 2,
   Event.write MP5922_ADDR 0x00 [2],
   Event.read MP5922_ADDR 0x88 2, Event.read MP5922_ADDR 0x8B 2,
   Event.read MP5922_ADDR 0x8C 2, Event.read MP5922_ADDR 0x96 2,
   Event.read MP5922_ADDR 0x79 2, Event.read MP5922_ADDR 0x7B 2,
   Event.read MP5922_ADDR 0x7C 2, Event.read MP5922_ADDR 0x7D 2]

/-- C8: whenever every transport response carries at least two bytes, a
`show_status` run from a fresh session issues exactly the expected call
sequence: one global 0x97 read, then per rail in configured order one
page-select write followed by the full eight-register read sequence. -/
theorem show_status_call_log (resp : Resp)
    (h : ∀ n, ∃ b0 b1 rest, resp n = b0 :: b1 :: rest) :
    (show_status resp ⟨[], 0⟩).2.log = show_status_expected_log := by
  obtain ⟨a0, b0, t0, h0⟩ := h 0
  obtain ⟨a1, b1, t1, h1⟩ := h 1
  obtain ⟨a2, b2, t2, h2⟩ := h 2
  obtain ⟨a3, b3, t3, h3⟩ := h 3
  obtain ⟨a4, b4, t4, h4⟩ := h 4
  obtain ⟨a5, b5, t5, h5⟩ := h 5
  obtain ⟨a6, b6, t6, h6⟩ := h 6
  obtain ⟨a7, b7, t7, h7⟩ := h 7
  obtain ⟨a8, b8, t8, h8⟩ := h 8
  obtain ⟨a9, b9, t9, h9⟩ := h 9
  obtain ⟨a10, b10, t10, h10⟩ := h 10
  obtain ⟨a11, b11, t11, h11⟩ := h 11
  obtain ⟨a12, b12, t12, h12⟩ := h 12
  obtain ⟨a13, b13, t13, h13⟩ := h 13
  obtain ⟨a14, b14, t14, h14⟩ := h 14
  obtain ⟨a15, b15, t15, h15⟩ := h 15
  obtain ⟨a16, b16, t16, h16⟩ := h 16
  obtain ⟨a17, b17, t17, h17⟩ := h 17
  obtain ⟨a18, b18, t18, h18⟩ := h 18
  obtain ⟨a19, b19, t19, h19⟩ := h 19
  obtain ⟨a20, b20, t20, h20⟩ := h 20
  obtain ⟨a21, b21, t21, h21⟩ := h 21
  obtain ⟨a22, b22, t22, h22⟩ := h 22
  obtain ⟨a23, b23, t23, h23⟩ := h 23
  obtain ⟨a24, b24, t24, h24⟩ := h 24
  simp [show_status, status_loop, read_rail, read_word, i2c_read, select_page,
    i2c_write, PAGES, show_status_expected_log,
    h0, h1, h2, h3, h4, h5, h6, h7, h8, h9, h10, h11, h12, h13, h14, h15,
    h16, h17, h18, h19, h20, h21, h22, h23, h24,
    show (0 : Nat) &&& 255 = 0 from by decide,
    show (1 : Nat) &&& 255 = 1 from by decide,
    show (2 : Nat) &&& 255 = 2 from by decide]

/-- C8 witness: the call-log theorem applied to the all-zero transport. -/
theorem show_status_call_log_witness :
    (show_status (fun _ => [0, 0]) ⟨[], 0⟩).2.log = show_status_expected_log :=
  show_status_call_log (fun _ => [0, 0]) (fun _ => ⟨0, 0, [], rfl⟩)

/-! ## Claim C4 -/

/-- C4: every report produced by `show_status` satisfies the summary
arithmetic exactly — `loss = pin_w - total_pout`; `eff = 0` whenever
`pin_w ≤ 0`; `eff = total_pout / pin_w * 100` whenever `0 < pin_w`; and
when `pin_w = 0` the loss equals `-total_pout`, not clamped. -/
theorem show_status_summary (resp : Resp) (s sf : I2CState) (r : SystemReport)
    (h : show_status resp s = (some r, sf)) :
    r.loss = r.pin_w - r.total_pout ∧
      (r.pin_w ≤ 0 → r.eff = 0) ∧
      (0 < r.pin_w → r.eff = r.total_pout / r.pin_w * 100) ∧
      (r.pin_w = 0 → r.loss = -r.total_pout) := by
  unfold show_status at h
  split at h
  · exact absurd (congrArg Prod.fst h) (by simp)
  · rename_i pin_raw s1 heq
    split at h
    · exact absurd (congrArg Prod.fst h) (by simp)
    · rename_i rails total s2 heq2
      have hr : r = ⟨pin_raw, raw_to_power pin_raw, rails, total,
          raw_to_power pin_raw - total,
          if raw_to_power pin_raw > 0 then total / raw_to_power pin_raw * 100
          else 0⟩ := by
        have := congrArg Prod.fst h
        simp at this
        exact this.symm
      subst hr
      refine ⟨rfl, ?_, ?_, ?_⟩
      · intro hle
        simp only
        rw [if_neg (not_lt.mpr hle)]
      · intro hlt
        simp only
        rw [if_pos hlt]
      · intro h0
        have h0q : raw_to_power pin_raw = 0 := h0
        show raw_to_power pin_raw - total = -total
        rw [h0q]
        ring

/-- Rail report of an all-zero rail, as produced on the all-zero
transport. -/
def zero_rail (page : Nat) (name : String) : RailReport :=
  ⟨page, name, 0, 0, 0, 0, 0, 0, 0, 0, ["NO_FAULTS"]⟩

/-- System report produced by `show_status` on the all-zero transport. -/
def zero_report : SystemReport :=
  ⟨0, 0,
   [zero_rail 0 "Main Rail (Loop 1)", zero_rail 1 "Aux Rail  (Loop 2)",
    zero_rail 2 "Rail 3    (Loop 3)"],
   0, 0, 0⟩

/-- C4 witness: the summary theorem applied to the all-zero transport,
where `pin_w = 0`. -/
theorem show_status_summary_witness :
    zero_report.loss = zero_report.pin_w - zero_report.total_pout ∧
      zero_report.eff = 0 :=
  have h : show_status (fun _ => [0, 0]) ⟨[], 0⟩ =
      (some zero_report, ⟨show_status_expected_log, 25⟩) := by
    simp [show_status, status_loop, read_rail, read_word, i2c_read,
      select_page, i2c_write, PAGES, zero_report, zero_rail, raw_to_power,
      raw_to_voltage, current, decode_faults, show_status_expected_log,
      show (0 : Nat) &&& 255 = 0 from by decide,
      show (1 : Nat) &&& 255 = 1 from by decide,
      show (2 : Nat) &&& 255 = 2 from by decide,
      show (0 ||| 0 <<< 8 : Nat) = 0 from by decide]
  ⟨(show_status_summary (fun _ => [0, 0]) ⟨[], 0⟩
      ⟨show_status_expected_log, 25⟩ zero_report h).1,
   (show_status_summary (fun _ => [0, 0]) ⟨[], 0⟩
      ⟨show_status_expected_log, 25⟩ zero_report h).2.1 (by norm_num [zero_report])⟩
